import Mathlib

/-
Verification development for the Asset Link plugin (src/index.js).
The JavaScript source is shallowly embedded: every stateful handler becomes a
pure function from an explicit state record (plus the field values read via
getField and the host-provided inputs) to a new state together with a list of
externally visible effects.  Host services (message bus, audio engine, object
property store, animation-duration lookup) appear as effect constructors or as
function-valued inputs.  JavaScript numbers are modelled as rationals, and
values that can be undefined are modelled with Option.
-/

/-- Splitting a character list at every comma, modelling JS String.split(",").
Structural recursion is used so that the kernel can evaluate it. -/
def splitOnComma : List Char → List (List Char)
  | [] => [[]]
  | c :: rest =>
      let r := splitOnComma rest
      if c = ',' then [] :: r
      else
        match r with
        | [] => [[c]]
        | g :: gs => (c :: g) :: gs

/-- Whitespace trimming on a character list, modelling JS String.trim. -/
def trimChars (cs : List Char) : List Char :=
  ((cs.dropWhile Char.isWhitespace).reverse.dropWhile Char.isWhitespace).reverse

/-- JS String.trim on strings. -/
def jsTrim (s : String) : String := String.mk (trimChars s.data)

/-- JS String.toLowerCase restricted to ASCII. -/
def jsToLower (s : String) : String := String.mk (s.data.map Char.toLower)

/-- Embeds the JS idiom s.split(",").map(t => t.trim()).filter(t => t.length > 0)
used throughout src/index.js (lines 62, 522, 533, 538). -/
def splitTrimFilter (s : String) : List String :=
  ((splitOnComma s.data).map (fun cs => String.mk (trimChars cs))).filter
    (fun t => t.length > 0)

/-- Numeric value of a list of decimal digit characters. -/
def digitsVal (ds : List Char) : Nat :=
  ds.foldl (fun a c => a * 10 + (c.toNat - 48)) 0

/-- Decimal-literal parser used to model the JS parseFloat library function on
an (already sign-stripped) character list: an integer part, optionally followed
by a dot and a fractional part; none models NaN. -/
def parseDecQ (cs : List Char) : Option ℚ :=
  let intPart := cs.takeWhile Char.isDigit
  let rest := cs.drop intPart.length
  match rest with
  | '.' :: rest2 =>
      let fracPart := rest2.takeWhile Char.isDigit
      if intPart.isEmpty && fracPart.isEmpty then none
      else some ((digitsVal intPart : ℚ) + (digitsVal fracPart : ℚ) / ((10 : ℚ) ^ fracPart.length))
  | _ => if intPart.isEmpty then none else some (digitsVal intPart : ℚ)

/-- Model of the JS parseFloat library function on plain decimal literals
(optional sign, digits, optional fraction); none models NaN.  Exponent forms
are outside the modelled fragment. -/
def parseFloatQ (s : String) : Option ℚ :=
  match trimChars s.data with
  | '-' :: cs => (parseDecQ cs).map (fun q => -q)
  | '+' :: cs => parseDecQ cs
  | cs => parseDecQ cs

/-- Integer-prefix parser modelling the JS parseInt library function in base 10. -/
def parseIntCore (cs : List Char) : Option Int :=
  let ds := cs.takeWhile Char.isDigit
  if ds.isEmpty then none else some (digitsVal ds : Int)

/-- Model of the JS parseInt library function on plain decimal integers. -/
def parseIntQ (s : String) : Option Int :=
  match trimChars s.data with
  | '-' :: cs => (parseIntCore cs).map Int.neg
  | '+' :: cs => parseIntCore cs
  | cs => parseIntCore cs

/-- Embeds the JS expression parseFloat(x) logior-coalesced with a default,
written parseFloat(x) followed by two vertical bars and d in the source: a NaN
parse (none) and a parsed value of 0 are both falsy, so both yield d. -/
def jsOrQ (x : Option ℚ) (d : ℚ) : ℚ :=
  match x with
  | none => d
  | some v => if v = 0 then d else v

/-- Same falsy-coalescing for parseInt results. -/
def jsOrI (x : Option Int) (d : Int) : Int :=
  match x with
  | none => d
  | some v => if v = 0 then d else v

/-- Falsy-coalescing for possibly-undefined strings: undefined (none) and the
empty string are falsy. -/
def jsStrOr (x : Option String) (d : String) : String :=
  match x with
  | none => d
  | some s => if s = "" then d else s

/-- Falsy-coalescing for plain strings (missing fields are modelled as ""). -/
def jsOrDefault (s d : String) : String :=
  if s = "" then d else s

/-- JS array indexing arr[i] for a possibly negative index: undefined (none)
when out of range. -/
def jsIndex (l : List String) (i : Int) : Option String :=
  if 0 ≤ i ∧ i.toNat < l.length then l.get? i.toNat else none

/-- JS Array.prototype.indexOf: first index of c in l, or -1 when absent. -/
def jsIndexOf (l : List String) (c : String) : Int :=
  if c ∈ l then (l.indexOf c : Int) else -1

/-- parseFloat(this.getField(volume)) with falsy default 1 (src/index.js
lines 650, 693, 724, 765, 777, 806, 818, 840, 860). -/
def parsedVolume (s : String) : ℚ := jsOrQ (parseFloatQ s) 1

/-- parseFloat(this.getField(cooldown)) with falsy default 1 (src/index.js
lines 590, 662). -/
def parsedCooldown (s : String) : ℚ := jsOrQ (parseFloatQ s) 1

/-- parseFloat(this.getField(proximityDistance)) with falsy default 2
(src/index.js line 389). -/
def parsedProximityDistance (s : String) : ℚ := jsOrQ (parseFloatQ s) 2

/-- parseInt(this.getField(requiredUserCount)) with falsy default 2
(src/index.js line 413). -/
def parsedRequiredUserCount (s : String) : Int := jsOrI (parseIntQ s) 2

/-- State of the AssetLink plugin singleton that the trigger and receiver
components consult: the admin-configured comma-separated allow-list
(availableRoles, src/index.js line 40) and the global user-role map
(userRoles, line 38).  The JS object map is embedded as a total function; a
missing key and an empty array are indistinguishable through getUserRoles. -/
structure PluginState where
  availableRoles : String
  instanceID : String
  userRoles : String → List String

/-- AssetLink.getUserRoles (src/index.js lines 42-44). -/
def getUserRoles (p : PluginState) (userID : String) : List String :=
  p.userRoles userID

/-- AssetLink.assignUserRole (src/index.js lines 46-54): create the entry if
missing, then push the role only when it is not already present. -/
def assignUserRole (roles : String → List String) (userID role : String) :
    String → List String :=
  fun u =>
    if u = userID then
      (if role ∈ roles userID then roles userID else roles userID ++ [role])
    else roles u

/-- AssetLink.isValidRole (src/index.js lines 61-64): membership of the role
in the split-trim-filtered allow-list. -/
def isValidRole (p : PluginState) (role : String) : Bool :=
  (splitTrimFilter p.availableRoles).contains role

/-- Settings fields of a TriggerComponent instance as read via getField.
Missing string fields are modelled as ""; the checkbox truthiness test
(getField === true or its string form lowercases to "true", src/index.js
lines 425-426) is collapsed into a Bool. -/
structure TFields where
  inputType : String
  proximityDistance : String
  requiredUserCount : String
  actionID : String
  adminOnly : Bool
  roleRestricted : Bool
  requiredRole : String
  assignRole : String
  objectID : String

/-- Broadcast effect of TriggerComponent.trigger: the messages.send call at
src/index.js lines 457-464. -/
inductive TriggerEffect where
  | sendTrigger (actionID : String) (instanceID : String) (userID : String)
      (objectID : String) (isAdmin : Bool)
deriving DecidableEq

/-- Tail of TriggerComponent.trigger after the role gate (src/index.js lines
444-464): optional idempotent role grant, then exactly one broadcast. -/
def triggerProceed (f : TFields) (p : PluginState) (userRoles : List String)
    (userID : String) (isAdmin : Bool) : PluginState × List TriggerEffect :=
  let p' :=
    if f.assignRole ≠ "" then
      (if isValidRole p f.assignRole then
        (if f.assignRole ∈ userRoles then p
         else { p with userRoles := assignUserRole p.userRoles userID f.assignRole })
       else p)
    else p
  (p', [TriggerEffect.sendTrigger f.actionID p.instanceID userID f.objectID isAdmin])

/-- TriggerComponent.trigger (src/index.js lines 424-465).  When the trigger
is role restricted and a required role is configured, it aborts silently
unless the role is in the valid allow-list and held by the acting user. -/
def trigger (f : TFields) (p : PluginState) (userID : String) (isAdmin : Bool) :
    PluginState × List TriggerEffect :=
  let userRoles := getUserRoles p userID
  if f.roleRestricted ∧ f.requiredRole ≠ "" then
    (if ¬ isValidRole p f.requiredRole then (p, [])
     else if f.requiredRole ∉ userRoles then (p, [])
     else triggerProceed f p userRoles userID isAdmin)
  else triggerProceed f p userRoles userID isAdmin

/-- One step of the edge-triggered decision inside TriggerComponent.checkProximity
(src/index.js lines 387-421), abstracted over the host-reported distance and
nearby-user count.  Returns (fires, new value of the one-shot triggered flag). -/
def checkProximityFires (f : TFields) (distance : ℚ) (nearbyCount : Nat)
    (triggered : Bool) : Bool × Bool :=
  let inputType := jsToLower (jsTrim (jsOrDefault f.inputType "On-Click"))
  let d := parsedProximityDistance f.proximityDistance
  if inputType = "proximity" then
    (if distance ≤ d then
      (if ¬ triggered then (true, true) else (false, triggered))
     else (false, false))
  else if inputType = "multi-proximity" then
    (if d < distance then (false, false)
     else
      let required := parsedRequiredUserCount f.requiredUserCount
      if required ≤ (nearbyCount : Int) ∧ ¬ triggered then (true, true)
      else if (nearbyCount : Int) < required then (false, false)
      else (false, triggered))
  else (false, triggered)

/-- One entry of the parsed transitionMapping JSON array (src/index.js line
241-242): keys from, to, forward, return, and the optional per-entry sound
overrides.  The JSON keys from and return are Lean keywords, hence the
guillemet names. -/
structure MappingEntry where
  «from» : String
  «to» : String
  forward : String
  «return» : String
  soundForward : Option String
  soundReturn : Option String
deriving DecidableEq

/-- Settings fields of a ReceiverComponent instance as read via getField.
Missing string fields are modelled as ""; checkbox truthiness is collapsed
into a Bool; transitionMapping stands for the JSON.parse result of the field
(none models a parse error, mapped to the empty list by readSettings,
src/index.js lines 548-553); dur models the host animation-duration lookup
getAnimationDuration (src/index.js lines 619-631), already including its
2000 ms fallback. -/
structure RFields where
  actionID : String
  roleRestricted : Bool
  requiredRole : String
  animationMode : String
  sound : String
  volume : String
  disableLocalAudio : Bool
  reactiveAnimation : String
  defaultAnimation : String
  cooldown : String
  transitionMode : String
  staticStates : String
  forwardTransitions : String
  reverseTransitions : String
  initialState : String
  transitionMapping : Option (List MappingEntry)
  objectID : String
  dur : String → ℚ

/-- Runtime instance state of a ReceiverComponent (src/index.js lines
487-556): fields that can be undefined in JS are Options, currentIndex is an
integer because the cycle arithmetic can step to -1, time is in
milliseconds. -/
structure RecvState where
  currentState : Option String
  currentIndex : Int
  currentDirection : Option Int
  staticStates : Option (List String)
  forwardTransitions : List String
  reverseTransitions : List String
  mappingArray : List MappingEntry
  disableLocalAudio : Bool
  processingTransition : Bool
  lastTriggerTime : ℚ

/-- Externally visible effects of the receiver handlers: objects.update calls
with only an animation, objects.update calls that also write the persisted
currentState property, objects.update calls that persist currentState and
currentDirection, local audio playback, the relaySound broadcast and the
delayed audio stop. -/
inductive Effect where
  | updateAnim (anim : String)
  | commit (anim : Option String) (state : Option String)
  | persist (state : Option String) (dir : Option Int)
  | playLocal (file : String) (volume : ℚ)
  | relaySound (sourceID : String) (file : String) (volume : ℚ) (duration : ℚ)
  | audioStop (afterMs : ℚ)
deriving DecidableEq

/-- ReceiverComponent.playSound (src/index.js lines 838-857): with a nonblank
configured sound file, play it locally and broadcast one relaySound message;
with a blank file, do nothing at all. -/
def playSound (f : RFields) (duration : ℚ) : List Effect :=
  if (jsTrim f.sound).length > 0 then
    [Effect.playLocal f.sound (parsedVolume f.volume),
     Effect.relaySound f.objectID f.sound (parsedVolume f.volume) duration,
     Effect.audioStop duration]
  else []

/-- ReceiverComponent.playSoundWithFile (src/index.js lines 859-870): local
playback of the given file only, with no relaySound broadcast. -/
def playSoundWithFile (f : RFields) (duration : ℚ) (soundFile : String) :
    List Effect :=
  if (jsTrim soundFile).length > 0 then
    [Effect.playLocal soundFile (parsedVolume f.volume), Effect.audioStop duration]
  else []

/-- The messages.send relaySound call used on every disableLocalAudio branch
(for example src/index.js lines 646-652, 689-695). -/
def relayOnly (f : RFields) (soundFile : String) (duration : ℚ) : List Effect :=
  [Effect.relaySound f.objectID soundFile (parsedVolume f.volume) duration]

/-- The sound block shared by handleReactive and handleTransitionCycle
(src/index.js lines 643-653, 686-696, 718-728): local playSound when local
audio is enabled, otherwise only the relaySound broadcast of the general
sound field. -/
def soundOrRelay (f : RFields) (disableLocal : Bool) (duration : ℚ) :
    List Effect :=
  if disableLocal then relayOnly f f.sound duration else playSound f duration

/-- The per-entry sound block of handleTransitionMapping (src/index.js lines
757-781 and 798-822): a nonblank override plays via playSoundWithFile (or is
relayed) and otherwise the general sound block runs. -/
def mappingSound (f : RFields) (disableLocal : Bool) (override : Option String)
    (duration : ℚ) : List Effect :=
  match override with
  | some s =>
      if (jsTrim s).length > 0 then
        (if disableLocal then relayOnly f s duration
         else playSoundWithFile f duration s)
      else soundOrRelay f disableLocal duration
  | none => soundOrRelay f disableLocal duration

/-- The direction normalisation at the start of the Cycle branch of
readSettings (src/index.js lines 539-545): at or past the last index the
direction becomes -1, at or below index 0 it becomes 1, and an undefined
direction defaults to 1. -/
def normalizeDirection (ci : Int) (len : Nat) (old : Option Int) : Option Int :=
  if ci ≥ (len : Int) - 1 then some (-1)
  else if ci ≤ 0 then some 1
  else
    match old with
    | none => some 1
    | some d => some d

/-- The direction flip at the start of handleTransitionCycle (src/index.js
lines 675-679): same boundary rules, but an undefined direction in the middle
of the list is left undefined. -/
def flipDirection (ci : Int) (len : Nat) (old : Option Int) : Option Int :=
  if ci ≥ (len : Int) - 1 then some (-1)
  else if ci ≤ 0 then some 1
  else old

/-- The effective staticStates string of readSettings (src/index.js lines
518-521): a missing or whitespace-only field falls back to the documented
default list. -/
def effectiveStaticStr (f : RFields) : String :=
  if (jsTrim f.staticStates).length = 0 then "static01, static02, static03"
  else f.staticStates

/-- The parsed static-state list of readSettings (src/index.js line 522). -/
def parsedStaticStates (f : RFields) : List String :=
  splitTrimFilter (effectiveStaticStr f)

/-- The Cycle branch of ReceiverComponent.readSettings (src/index.js lines
517-545): parse the three lists (reversing the reverse list), keep the stored
state when it is still a member (recomputing its index), otherwise reset to
index 0 and the first parsed state, then normalise the direction. -/
def readSettingsCycle (f : RFields) (st : RecvState) : RecvState :=
  let ss := parsedStaticStates f
  let keep : Bool :=
    match st.currentState with
    | some c => c ≠ "" && ss.contains c
    | none => false
  let ci : Int := if keep then jsIndexOf ss (st.currentState.getD "") else 0
  let cs : Option String := if keep then st.currentState else ss.head?
  let fwd := splitTrimFilter
    (if (jsTrim f.forwardTransitions).length = 0 then "transition01, transition02"
     else f.forwardTransitions)
  let rev := (splitTrimFilter
    (if (jsTrim f.reverseTransitions).length = 0 then "return02, return01"
     else f.reverseTransitions)).reverse
  { st with
    staticStates := some ss
    currentState := cs
    currentIndex := ci
    forwardTransitions := fwd
    reverseTransitions := rev
    currentDirection := normalizeDirection ci ss.length st.currentDirection }

/-- ReceiverComponent.readSettings (src/index.js lines 509-556): records
disableLocalAudio, and in Transition mode either runs the Cycle branch or, in
Mapping mode, resets currentState to the initial state and stores the parsed
mapping array (an unparsable field becomes the empty list). -/
def readSettings (f : RFields) (st : RecvState) : RecvState :=
  let st := { st with disableLocalAudio := f.disableLocalAudio }
  if jsTrim (jsOrDefault f.animationMode "Reactive") = "Transition" then
    (if jsTrim (jsOrDefault f.transitionMode "Cycle") = "Cycle" then
      readSettingsCycle f st
     else
      { st with
        currentState := some (jsOrDefault f.initialState "static01")
        mappingArray := f.transitionMapping.getD [] })
  else st

/-- The default static-state list installed by handleTransitionCycle when the
stored list is missing or empty (src/index.js lines 667-674); the source maps
trim without filtering here. -/
def cycleDefaultStates : List String :=
  ((splitOnComma "static01, static02, static03".data).map
    (fun cs => String.mk (trimChars cs)))

/-- ReceiverComponent.handleTransitionCycle (src/index.js lines 666-745),
with the scheduled duration callback already run: install default states if
needed, flip the direction at the boundaries, then in the chosen direction
play the transition animation, emit the sound block, commit the neighbouring
static state and persist state and direction; with no legal move (or an
undefined mid-list direction) just clear the single-flight flag (the
undefined-direction case leaves it set, as in the source where neither branch
runs). -/
def handleTransitionCycle (f : RFields) (st : RecvState) :
    RecvState × List Effect :=
  let st :=
    if (match st.staticStates with
        | none => true
        | some ss => ss.isEmpty) then
      { st with
        staticStates := some cycleDefaultStates
        currentIndex := 0
        currentState := jsIndex cycleDefaultStates 0
        currentDirection := some 1 }
    else st
  let ss := st.staticStates.getD []
  let dir := flipDirection st.currentIndex ss.length st.currentDirection
  let st := { st with currentDirection := dir }
  if dir = some 1 then
    let nextIndex := st.currentIndex + 1
    if nextIndex < (ss.length : Int) then
      let transitionAnim := jsStrOr (jsIndex st.forwardTransitions st.currentIndex)
        (jsStrOr (jsIndex st.forwardTransitions 0) "transition01")
      let duration := f.dur transitionAnim
      let nextState := jsIndex ss nextIndex
      ({ st with
          currentIndex := nextIndex
          currentState := nextState
          processingTransition := false },
       [Effect.updateAnim transitionAnim]
         ++ soundOrRelay f st.disableLocalAudio duration
         ++ [Effect.commit nextState nextState,
             Effect.persist nextState dir])
    else ({ st with processingTransition := false }, [])
  else if dir = some (-1) then
    let nextIndex := st.currentIndex - 1
    if 0 ≤ nextIndex then
      let transitionAnim := jsStrOr (jsIndex st.reverseTransitions nextIndex)
        (jsStrOr (jsIndex st.reverseTransitions 0) "return01")
      let duration := f.dur transitionAnim
      let nextState := jsIndex ss nextIndex
      ({ st with
          currentIndex := nextIndex
          currentState := nextState
          processingTransition := false },
       [Effect.updateAnim transitionAnim]
         ++ soundOrRelay f st.disableLocalAudio duration
         ++ [Effect.commit nextState nextState,
             Effect.persist nextState dir])
    else ({ st with processingTransition := false }, [])
  else (st, [])

/-- ReceiverComponent.handleReactive (src/index.js lines 633-664), with both
scheduled callbacks already run: commit the reactive animation as the object
state, emit the sound block, and after the duration commit the default
animation; the single-flight flag clears after the extra cooldown wait.  The
instance currentState field is not touched. -/
def handleReactive (f : RFields) (st : RecvState) : RecvState × List Effect :=
  let duration := f.dur f.reactiveAnimation
  ({ st with processingTransition := false },
   [Effect.commit (some f.reactiveAnimation) (some f.reactiveAnimation)]
     ++ soundOrRelay f st.disableLocalAudio duration
     ++ [Effect.commit (some f.defaultAnimation) (some f.defaultAnimation)])

/-- ReceiverComponent.handleTransitionMapping (src/index.js lines 747-836),
with the scheduled duration callback already run: with an empty mapping list
just clear the flag; otherwise search for an entry whose from key equals the
current state (forward) and only then for one whose to key equals it
(reverse); play the matching animation and sound, commit the other endpoint;
with no match in either direction just clear the flag with no effects. -/
def handleTransitionMapping (f : RFields) (st : RecvState) :
    RecvState × List Effect :=
  if st.mappingArray.isEmpty then
    ({ st with processingTransition := false }, [])
  else
    match st.mappingArray.find? (fun m => some m.«from» == st.currentState) with
    | some m =>
        let duration := f.dur m.forward
        ({ st with
            currentState := some m.«to»
            processingTransition := false },
         [Effect.updateAnim m.forward]
           ++ mappingSound f st.disableLocalAudio m.soundForward duration
           ++ [Effect.commit (some m.«to») (some m.«to»)])
    | none =>
        match st.mappingArray.find? (fun m => some m.«to» == st.currentState) with
        | some m =>
            let duration := f.dur m.«return»
            ({ st with
                currentState := some m.«from»
                processingTransition := false },
             [Effect.updateAnim m.«return»]
               ++ mappingSound f st.disableLocalAudio m.soundReturn duration
               ++ [Effect.commit (some m.«from») (some m.«from»)])
        | none => ({ st with processingTransition := false }, [])

/-- ReceiverComponent.handleTrigger (src/index.js lines 589-617): drop the
event inside the cooldown window before touching anything; then record the
trigger time; then drop it if a transition is in flight; otherwise set the
single-flight flag and dispatch on the animation mode. -/
def handleTrigger (f : RFields) (now : ℚ) (st : RecvState) :
    RecvState × List Effect :=
  let cooldown := parsedCooldown f.cooldown
  if now - st.lastTriggerTime < cooldown * 1000 then (st, [])
  else
    let st := { st with lastTriggerTime := now }
    if st.processingTransition then (st, [])
    else
      let st := { st with processingTransition := true }
      let mode := jsTrim (jsOrDefault f.animationMode "Reactive")
      if mode = "Reactive" then handleReactive f st
      else if mode = "Transition" then
        (if jsTrim (jsOrDefault f.transitionMode "Cycle") = "Cycle" then
          handleTransitionCycle f st
         else handleTransitionMapping f st)
      else ({ st with processingTransition := false }, [])

/-- An incoming trigger message as delivered to ReceiverComponent.onMessage. -/
structure TriggerMsg where
  action : String
  actionID : String
  userID : String
  isAdmin : Bool
deriving DecidableEq

/-- The acceptance decision of ReceiverComponent.onMessage (src/index.js
lines 568-587): the action and actionID must match, and when role restricted
with a nonempty required role, the role must be valid and held by the sending
user; true means handleTrigger is invoked. -/
def receiverAccepts (f : RFields) (p : PluginState) (msg : TriggerMsg) : Bool :=
  if msg.action = "trigger" ∧ msg.actionID = f.actionID then
    (if f.roleRestricted ∧ f.requiredRole ≠ "" then
      (if ¬ isValidRole p f.requiredRole then false
       else (getUserRoles p msg.userID).contains f.requiredRole)
     else true)
  else false

/-- The cycle-mode runtime invariant claimed by the design: the receiver holds
a static-state list, its current state is defined, and the current index
points at the current state inside that list. -/
def CycleInv (st : RecvState) : Prop :=
  ∃ ss s, st.staticStates = some ss ∧ st.currentState = some s ∧
    jsIndex ss st.currentIndex = some s

/-- True when an effect writes a currentState value (commit or persist) that
is not a member of the given static-state list. -/
def commitsOutside (ss : List String) : Effect → Bool
  | Effect.commit _ s =>
      !(match s with
        | some v => ss.contains v
        | none => false)
  | Effect.persist s _ =>
      !(match s with
        | some v => ss.contains v
        | none => false)
  | _ => false

/-- An empty role map, for concrete instantiations. -/
def noRoles : String → List String := fun _ => []

/-- A concrete plugin singleton state. -/
def samplePlugin : PluginState :=
  { availableRoles := "level01, level02"
    instanceID := "inst1"
    userRoles := noRoles }

/-- A constant host animation-duration lookup. -/
def durConst : String → ℚ := fun _ => 2000

/-- A concrete receiver field assignment (cycle mode, three states). -/
def sampleRF : RFields :=
  { actionID := "door"
    roleRestricted := false
    requiredRole := ""
    animationMode := "Transition"
    sound := "click.mp3"
    volume := "1"
    disableLocalAudio := false
    reactiveAnimation := "active"
    defaultAnimation := "default"
    cooldown := "1"
    transitionMode := "Cycle"
    staticStates := "a, b, c"
    forwardTransitions := "t1, t2"
    reverseTransitions := "r2, r1"
    initialState := "a"
    transitionMapping := none
    objectID := "obj1"
    dur := durConst }

/-- A concrete receiver runtime state matching sampleRF. -/
def sampleSt : RecvState :=
  { currentState := some "a"
    currentIndex := 0
    currentDirection := some 1
    staticStates := some ["a", "b", "c"]
    forwardTransitions := ["t1", "t2"]
    reverseTransitions := ["r1", "r2"]
    mappingArray := []
    disableLocalAudio := false
    processingTransition := false
    lastTriggerTime := 0 }

/-- A concrete trigger field assignment (role restricted). -/
def sampleTF : TFields :=
  { inputType := "On-Click"
    proximityDistance := "2"
    requiredUserCount := "2"
    actionID := "door"
    adminOnly := false
    roleRestricted := true
    requiredRole := "level01"
    assignRole := ""
    objectID := "objT" }

/-- The single mapping entry of the design example. -/
def sampleEntry : MappingEntry :=
  { «from» := "A"
    «to» := "B"
    forward := "F"
    «return» := "R"
    soundForward := none
    soundReturn := none }

/-- Whether an effect is a relaySound broadcast. -/
def Effect.isRelay : Effect → Bool
  | Effect.relaySound _ _ _ _ => true
  | _ => false

/-- Whether an effect is a local audio playback. -/
def Effect.isLocalPlay : Effect → Bool
  | Effect.playLocal _ _ => true
  | _ => false

/-- Receiver fields whose staticStates string is nonblank but parses to no
state names at all. -/
def cexRF1 : RFields := { sampleRF with staticStates := ",,," }

/-- A receiver whose stored state is not in the configured list. -/
def cexSt1 : RecvState := { sampleSt with currentState := some "other" }

/-- A receiver with a single-element static-state list at index 0. -/
def cexSt2 : RecvState :=
  { sampleSt with
      currentState := some "solo"
      staticStates := some ["solo"]
      forwardTransitions := ["t1"]
      reverseTransitions := ["r1"] }

/-- The design-example mapping entry with a forward sound override. -/
def cexEntry9 : MappingEntry := { sampleEntry with soundForward := some "ding.mp3" }

/-- A mapping-mode receiver state in state A with the override entry. -/
def cexSt9 : RecvState :=
  { sampleSt with currentState := some "A", mappingArray := [cexEntry9] }

/-- A mapping-mode receiver state in state A with the plain example entry. -/
def mapSt : RecvState :=
  { sampleSt with currentState := some "A", mappingArray := [sampleEntry] }

/-- A receiver state with the single-flight flag set. -/
def busySt : RecvState := { sampleSt with processingTransition := true }

/-- A plugin state in which user alice holds role level01. -/
def rolePlugin : PluginState :=
  { samplePlugin with
      userRoles := fun u => if u = "alice" then ["level01"] else [] }

/-- Trigger fields that are role restricted with an empty required role. -/
def bypassTF : TFields := { sampleTF with requiredRole := "" }

/-- Receiver fields that are role restricted with an empty required role. -/
def bypassRF : RFields := { sampleRF with roleRestricted := true, requiredRole := "" }

/-- A trigger message matching the sample receiver. -/
def sampleMsg : TriggerMsg :=
  { action := "trigger", actionID := "door", userID := "bob", isAdmin := false }

/-- A receiver state at the last index of the three-state list. -/
def lastSt : RecvState := { sampleSt with currentIndex := 2, currentState := some "c" }

/-- A receiver state with stored state b and no stored direction. -/
def midSt : RecvState :=
  { sampleSt with currentState := some "b", currentDirection := none }

/-- A receiver state with local audio disabled. -/
def relaySt : RecvState := { sampleSt with disableLocalAudio := true }

theorem jsIndex_mem {l : List String} {i : Int} {v : String}
    (h : jsIndex l i = some v) : v ∈ l := by
  unfold jsIndex at h
  split at h
  · exact List.get?_mem h
  · cases h

theorem jsIndex_bounds {l : List String} {i : Int} {v : String}
    (h : jsIndex l i = some v) :
    0 ≤ i ∧ i.toNat < l.length ∧ l.get? i.toNat = some v := by
  unfold jsIndex at h
  split at h
  next hc => exact ⟨hc.1, hc.2, h⟩
  next => cases h

theorem jsIndex_exists {l : List String} {i : Int}
    (h0 : 0 ≤ i) (hlt : i < (l.length : Int)) :
    ∃ v, jsIndex l i = some v ∧ v ∈ l := by
  have hn : i.toNat < l.length := by omega
  refine ⟨l.get ⟨i.toNat, hn⟩, ?_, List.get_mem l i.toNat hn⟩
  unfold jsIndex
  rw [if_pos ⟨h0, hn⟩]
  exact List.get?_eq_get hn

theorem jsIndexOf_spec {l : List String} {c : String} (h : c ∈ l) :
    jsIndex l (jsIndexOf l c) = some c := by
  unfold jsIndexOf jsIndex
  rw [if_pos h]
  have hlt : l.indexOf c < l.length := List.indexOf_lt_length.mpr h
  have h2 : ((l.indexOf c : Int)).toNat = l.indexOf c := Int.toNat_ofNat _
  rw [if_pos ⟨Int.ofNat_nonneg _, by rw [h2]; exact hlt⟩]
  rw [h2]
  exact List.indexOf_get? h

theorem contains_of_mem {l : List String} {v : String} (h : v ∈ l) :
    l.contains v = true :=
  List.elem_iff.mpr h

theorem mem_of_contains {l : List String} {v : String}
    (h : l.contains v = true) : v ∈ l :=
  List.elem_iff.mp h

theorem commitsOutside_soundOrRelay (ss : List String) (f : RFields)
    (dis : Bool) (dur : ℚ) :
    ∀ e ∈ soundOrRelay f dis dur, commitsOutside ss e = false := by
  intro e he
  unfold soundOrRelay relayOnly playSound at he
  split at he
  · simp only [List.mem_singleton] at he
    subst he; rfl
  · split at he
    · simp only [List.mem_cons, List.mem_singleton, List.not_mem_nil,
        or_false] at he
      rcases he with h | h | h <;> (subst h; rfl)
    · cases he

theorem commitsOutside_branch (ss : List String) (f : RFields) (dis : Bool)
    (ta : String) (dur : ℚ) (v : String) (hv : v ∈ ss) (d : Option Int) :
    ∀ e ∈ ([Effect.updateAnim ta] ++ soundOrRelay f dis dur
        ++ [Effect.commit (some v) (some v), Effect.persist (some v) d]),
      commitsOutside ss e = false := by
  intro e he
  simp only [List.mem_append, List.mem_cons, List.mem_singleton,
    List.not_mem_nil, or_false] at he
  rcases he with (h | h) | (h | h)
  · subst h; rfl
  · exact commitsOutside_soundOrRelay ss f dis dur e h
  · subst h
    simp only [commitsOutside]
    rw [contains_of_mem hv]
    rfl
  · subst h
    simp only [commitsOutside]
    rw [contains_of_mem hv]
    rfl

theorem handleTransitionCycle_preserves (f : RFields) (st : RecvState)
    (ss : List String) (s : String) (hss : st.staticStates = some ss)
    (hcs : st.currentState = some s)
    (hidx : jsIndex ss st.currentIndex = some s) :
    CycleInv (handleTransitionCycle f st).1 ∧
    (handleTransitionCycle f st).1.staticStates = some ss ∧
    ∀ e ∈ (handleTransitionCycle f st).2, commitsOutside ss e = false := by
  obtain ⟨h0, hltn, hget⟩ := jsIndex_bounds hidx
  have hilt : st.currentIndex < (ss.length : Int) := by omega
  have hne : ss.isEmpty = false := by
    cases ss with
    | nil => simp at hltn
    | cons a t => rfl
  unfold handleTransitionCycle CycleInv
  rw [hss]
  simp only [hne, Bool.false_eq_true, if_false, Option.getD_some]
  simp only [hss, Option.getD_some]
  by_cases hd1 : (ss.length : Int) - 1 ≤ st.currentIndex
  · have hd : flipDirection st.currentIndex ss.length st.currentDirection = some (-1) := by
      unfold flipDirection
      rw [if_pos hd1]
    rw [hd]
    rw [if_neg (by decide : ¬ (some (-1) : Option Int) = some 1), if_pos rfl]
    by_cases hge : (0 : Int) ≤ st.currentIndex - 1
    · rw [if_pos hge]
      obtain ⟨v, hv, hvmem⟩ :=
        jsIndex_exists (l := ss) (i := st.currentIndex - 1) hge (by omega)
      rw [hv]
      exact ⟨⟨ss, v, rfl, rfl, hv⟩, rfl,
        commitsOutside_branch ss f st.disableLocalAudio _ _ v hvmem _⟩
    · rw [if_neg hge]
      exact ⟨⟨ss, s, rfl, hcs, hidx⟩, rfl, by intro e he; cases he⟩
  · have hlt1 : st.currentIndex < (ss.length : Int) - 1 := by omega
    by_cases hd2 : st.currentIndex ≤ 0
    · have hd : flipDirection st.currentIndex ss.length st.currentDirection = some 1 := by
        unfold flipDirection
        rw [if_neg (by omega), if_pos hd2]
      rw [hd]
      rw [if_pos rfl, if_pos (by omega : st.currentIndex + 1 < (ss.length : Int))]
      obtain ⟨v, hv, hvmem⟩ :=
        jsIndex_exists (l := ss) (i := st.currentIndex + 1) (by omega) (by omega)
      rw [hv]
      exact ⟨⟨ss, v, rfl, rfl, hv⟩, rfl,
        commitsOutside_branch ss f st.disableLocalAudio _ _ v hvmem _⟩
    · have hd : flipDirection st.currentIndex ss.length st.currentDirection = st.currentDirection := by
        unfold flipDirection
        rw [if_neg (by omega), if_neg hd2]
      rw [hd]
      cases hdir : st.currentDirection with
      | none =>
        rw [if_neg (by simp), if_neg (by simp)]
        exact ⟨⟨ss, s, rfl, hcs, hidx⟩, rfl, by intro e he; cases he⟩
      | some d =>
        by_cases hone : d = 1
        · subst hone
          rw [if_pos rfl, if_pos (by omega : st.currentIndex + 1 < (ss.length : Int))]
          obtain ⟨v, hv, hvmem⟩ :=
            jsIndex_exists (l := ss) (i := st.currentIndex + 1) (by omega) (by omega)
          rw [hv]
          exact ⟨⟨ss, v, rfl, rfl, hv⟩, rfl,
            commitsOutside_branch ss f st.disableLocalAudio _ _ v hvmem _⟩
        · by_cases hneg : d = -1
          · subst hneg
            rw [if_neg (by decide : ¬ (some (-1) : Option Int) = some 1), if_pos rfl,
              if_pos (by omega : (0 : Int) ≤ st.currentIndex - 1)]
            obtain ⟨v, hv, hvmem⟩ :=
              jsIndex_exists (l := ss) (i := st.currentIndex - 1) (by omega) (by omega)
            rw [hv]
            exact ⟨⟨ss, v, rfl, rfl, hv⟩, rfl,
              commitsOutside_branch ss f st.disableLocalAudio _ _ v hvmem _⟩
          · rw [if_neg (by simp [hone]), if_neg (by simp [hneg])]
            exact ⟨⟨ss, s, rfl, hcs, hidx⟩, rfl, by intro e he; cases he⟩

theorem jsIndex_zero (a : String) (t : List String) :
    jsIndex (a :: t) 0 = some a := by
  unfold jsIndex
  rw [if_pos ⟨le_refl 0, by simp⟩]
  rfl

theorem contains_eq_false {l : List String} {v : String} (h : v ∉ l) :
    l.contains v = false := by
  cases hc : l.contains v
  · rfl
  · exact absurd (mem_of_contains hc) h

theorem normalizeDirection_zero (len : Nat) (old : Option Int) (h : 1 ≤ len) :
    normalizeDirection 0 len old = some (if len = 1 then -1 else 1) := by
  unfold normalizeDirection
  by_cases h1 : len = 1
  · subst h1
    rw [if_pos (by omega), if_pos rfl]
  · rw [if_neg (by omega), if_pos (le_refl 0), if_neg h1]

theorem readSettingsCycle_establishes (f : RFields) (st : RecvState)
    (hne : parsedStaticStates f ≠ []) :
    CycleInv (readSettingsCycle f st) := by
  obtain ⟨a, t, hat⟩ := List.exists_cons_of_ne_nil hne
  unfold readSettingsCycle CycleInv
  cases hcs : st.currentState with
  | none =>
    simp only [Bool.false_eq_true, if_false]
    exact ⟨parsedStaticStates f, a, rfl, by rw [hat]; rfl, by rw [hat]; exact jsIndex_zero a t⟩
  | some c =>
    by_cases hk : (decide (c ≠ "") && (parsedStaticStates f).contains c) = true
    · simp only [hk, if_true]
      have hmem : c ∈ parsedStaticStates f :=
        mem_of_contains (Bool.and_elim_right hk)
      exact ⟨parsedStaticStates f, c, rfl, rfl, by
        simpa using jsIndexOf_spec hmem⟩
    · simp only [Bool.not_eq_true] at hk
      simp only [hk, Bool.false_eq_true, if_false]
      exact ⟨parsedStaticStates f, a, rfl, by rw [hat]; rfl, by rw [hat]; exact jsIndex_zero a t⟩

theorem readSettingsCycle_reset (f : RFields) (st : RecvState)
    (hne : parsedStaticStates f ≠ [])
    (hout : ∀ c, st.currentState = some c → c = "" ∨ c ∉ parsedStaticStates f) :
    (readSettingsCycle f st).currentIndex = 0 ∧
    (readSettingsCycle f st).currentState = (parsedStaticStates f).head? ∧
    (readSettingsCycle f st).currentDirection =
      some (if (parsedStaticStates f).length = 1 then -1 else 1) := by
  have hlen : 1 ≤ (parsedStaticStates f).length := by
    cases hp : parsedStaticStates f with
    | nil => exact absurd hp hne
    | cons a t => simp
  have hkeep : (match st.currentState with
      | some c => decide (c ≠ "") && (parsedStaticStates f).contains c
      | none => false) = false := by
    cases hcs : st.currentState with
    | none => rfl
    | some c =>
      rcases hout c hcs with h | h
      · subst h; rfl
      · simp only [Bool.and_eq_false_iff]
        (right; exact contains_eq_false h)
  unfold readSettingsCycle
  simp only [hkeep, Bool.false_eq_true, if_false]
  refine ⟨trivial, trivial, ?_⟩
  exact normalizeDirection_zero _ _ hlen

/-- C3: a trigger event arriving before cooldown seconds have elapsed since the
last recorded trigger time is dropped by handleTrigger with no effects and no
state mutation whatsoever: the result is exactly the unchanged state and an
empty effect list. -/
theorem cooldown_drops_trigger (f : RFields) (now : ℚ) (st : RecvState)
    (h : now - st.lastTriggerTime < parsedCooldown f.cooldown * 1000) :
    handleTrigger f now st = (st, []) := by
  unfold handleTrigger
  rw [if_pos h]

/-- Witness for C3 at a concrete input: 500 ms after a trigger at time 0 with
the default one-second cooldown, nothing happens. -/
theorem cooldown_drops_trigger_witness :
    handleTrigger sampleRF 500 sampleSt = (sampleSt, []) :=
  cooldown_drops_trigger sampleRF 500 sampleSt
    (by rw [show parsedCooldown sampleRF.cooldown = 1 from by decide]
        show (500 : ℚ) - 0 < 1 * 1000
        norm_num)

/-- C4: while the single-flight flag processingTransition is set, handleTrigger
drops every further trigger event: no effects are emitted, the flag stays set,
and the transition state (current state, index, direction, static states,
mapping) is untouched; only the last-trigger timestamp may move. -/
theorem single_flight_drops_trigger (f : RFields) (now : ℚ) (st : RecvState)
    (h : st.processingTransition = true) :
    (handleTrigger f now st).2 = [] ∧
    (handleTrigger f now st).1.processingTransition = true ∧
    (handleTrigger f now st).1.currentState = st.currentState ∧
    (handleTrigger f now st).1.currentIndex = st.currentIndex ∧
    (handleTrigger f now st).1.currentDirection = st.currentDirection ∧
    (handleTrigger f now st).1.staticStates = st.staticStates ∧
    (handleTrigger f now st).1.mappingArray = st.mappingArray := by
  unfold handleTrigger
  by_cases hc : now - st.lastTriggerTime < parsedCooldown f.cooldown * 1000
  · rw [if_pos hc]
    exact ⟨rfl, h, rfl, rfl, rfl, rfl, rfl⟩
  · rw [if_neg hc]
    simp only [h, if_true]
    simp

/-- Witness for C4 at a concrete input: with the flag set and the cooldown long
expired, the trigger is still dropped. -/
theorem single_flight_drops_trigger_witness :
    (handleTrigger sampleRF 5000 busySt).2 = [] ∧
    (handleTrigger sampleRF 5000 busySt).1.processingTransition = true ∧
    (handleTrigger sampleRF 5000 busySt).1.currentState = busySt.currentState ∧
    (handleTrigger sampleRF 5000 busySt).1.currentIndex = busySt.currentIndex ∧
    (handleTrigger sampleRF 5000 busySt).1.currentDirection = busySt.currentDirection ∧
    (handleTrigger sampleRF 5000 busySt).1.staticStates = busySt.staticStates ∧
    (handleTrigger sampleRF 5000 busySt).1.mappingArray = busySt.mappingArray :=
  single_flight_drops_trigger sampleRF 5000 busySt rfl

/-- C5: in mapping mode an accepted trigger first looks for an entry whose from
key equals the current state and then commits its to key after playing its
forward animation; only when no forward entry matches is an entry matched on
its to key used, playing its return animation and committing its from key; if
neither direction matches (or the mapping list is empty), the single-flight
flag clears with no animation, sound or state change. -/
theorem mapping_transition_behavior (f : RFields) (st : RecvState) :
    (∀ m, st.mappingArray.find? (fun m => some m.«from» == st.currentState) = some m →
      handleTransitionMapping f st =
        ({ st with currentState := some m.«to», processingTransition := false },
         [Effect.updateAnim m.forward]
           ++ mappingSound f st.disableLocalAudio m.soundForward (f.dur m.forward)
           ++ [Effect.commit (some m.«to») (some m.«to»)])) ∧
    (st.mappingArray.find? (fun m => some m.«from» == st.currentState) = none →
      ∀ m, st.mappingArray.find? (fun m => some m.«to» == st.currentState) = some m →
        handleTransitionMapping f st =
          ({ st with currentState := some m.«from», processingTransition := false },
           [Effect.updateAnim m.«return»]
             ++ mappingSound f st.disableLocalAudio m.soundReturn (f.dur m.«return»)
             ++ [Effect.commit (some m.«from») (some m.«from»)])) ∧
    (st.mappingArray.find? (fun m => some m.«from» == st.currentState) = none →
      st.mappingArray.find? (fun m => some m.«to» == st.currentState) = none →
        handleTransitionMapping f st = ({ st with processingTransition := false }, [])) := by
  have hempty : st.mappingArray.isEmpty = true → st.mappingArray = [] := by
    cases st.mappingArray with
    | nil => intro _; rfl
    | cons a t => intro hc; cases hc
  refine ⟨?_, ?_, ?_⟩
  · intro m hm
    have hne : st.mappingArray.isEmpty = false := by
      cases he : st.mappingArray.isEmpty
      · rfl
      · rw [hempty he] at hm; cases hm
    unfold handleTransitionMapping
    rw [hne]
    simp only [Bool.false_eq_true, if_false, hm]
  · intro hfwd m hm
    have hne : st.mappingArray.isEmpty = false := by
      cases he : st.mappingArray.isEmpty
      · rfl
      · rw [hempty he] at hm; cases hm
    unfold handleTransitionMapping
    rw [hne]
    simp only [Bool.false_eq_true, if_false, hfwd, hm]
  · intro hfwd hrev
    unfold handleTransitionMapping
    cases hne : st.mappingArray.isEmpty
    · simp only [Bool.false_eq_true, if_false, hfwd, hrev]
    · simp only [if_true]
/-- Witness for C5 at the design example: from state A the entry maps forward
to B with animation F. -/
theorem mapping_transition_behavior_witness :
    handleTransitionMapping sampleRF mapSt =
      ({ mapSt with currentState := some sampleEntry.«to», processingTransition := false },
       [Effect.updateAnim sampleEntry.forward]
         ++ mappingSound sampleRF mapSt.disableLocalAudio sampleEntry.soundForward
              (sampleRF.dur sampleEntry.forward)
         ++ [Effect.commit (some sampleEntry.«to») (some sampleEntry.«to»)]) :=
  (mapping_transition_behavior sampleRF mapSt).1 sampleEntry (by decide)

/-- C6: for a role-restricted trigger with a nonempty required role, a user
who does not hold the role (or whose role is not in the valid allow-list)
causes a silent abort with no broadcast and no plugin-state change, while a
user who holds the role, the role being valid, causes exactly one broadcast
trigger message carrying the action identifier, the admin flag and the acting
user identifier. -/
theorem role_restricted_trigger_gate (f : TFields) (p : PluginState)
    (userID : String) (isAdmin : Bool)
    (hr : f.roleRestricted = true) (hreq : f.requiredRole ≠ "") :
    (f.requiredRole ∉ getUserRoles p userID →
      trigger f p userID isAdmin = (p, [])) ∧
    (isValidRole p f.requiredRole = false →
      trigger f p userID isAdmin = (p, [])) ∧
    (isValidRole p f.requiredRole = true →
      f.requiredRole ∈ getUserRoles p userID →
      (trigger f p userID isAdmin).2 =
        [TriggerEffect.sendTrigger f.actionID p.instanceID userID f.objectID isAdmin]) := by
  unfold trigger
  rw [if_pos ⟨hr, hreq⟩]
  refine ⟨?_, ?_, ?_⟩
  · intro hnot
    by_cases hv : isValidRole p f.requiredRole = true
    · rw [if_neg (by simp [hv]), if_pos hnot]
    · rw [if_pos (by simpa using hv)]
  · intro hv
    rw [if_pos (by simp [hv])]
  · intro hv hmem
    rw [if_neg (by simp [hv]), if_neg (by simp [hmem])]
    unfold triggerProceed
    rfl

/-- Witness for C6: bob lacks level01 and produces no broadcast; alice holds
level01 (a valid role) and produces exactly one broadcast. -/
theorem role_restricted_trigger_gate_witness :
    trigger sampleTF rolePlugin "bob" false = (rolePlugin, []) ∧
    (trigger sampleTF rolePlugin "alice" false).2 =
      [TriggerEffect.sendTrigger sampleTF.actionID rolePlugin.instanceID "alice"
        sampleTF.objectID false] :=
  ⟨(role_restricted_trigger_gate sampleTF rolePlugin "bob" false rfl
      (by decide)).1 (by decide),
   (role_restricted_trigger_gate sampleTF rolePlugin "alice" false rfl
      (by decide)).2.2 (by decide) (by decide)⟩

theorem assignUserRole_self (r : String → List String) (u ro : String) :
    ro ∈ assignUserRole r u ro u := by
  unfold assignUserRole
  rw [if_pos rfl]
  by_cases h : ro ∈ r u
  · rw [if_pos h]; exact h
  · rw [if_neg h]; exact List.mem_append_right _ (List.mem_singleton_self ro)

theorem assignUserRole_mono (r : String → List String) (u ro x : String)
    (h : x ∈ r u) : x ∈ assignUserRole r u ro u := by
  unfold assignUserRole
  rw [if_pos rfl]
  by_cases hm : ro ∈ r u
  · rw [if_pos hm]; exact h
  · rw [if_neg hm]; exact List.mem_append_left _ h

theorem trigger_eq_proceed (f : TFields) (p : PluginState) (u : String) (a : Bool)
    (h : ¬ (f.roleRestricted = true ∧ f.requiredRole ≠ "") ∨
      (isValidRole p f.requiredRole = true ∧ f.requiredRole ∈ getUserRoles p u)) :
    trigger f p u a = triggerProceed f p (getUserRoles p u) u a := by
  unfold trigger
  rcases h with h | ⟨hv, hm⟩
  · rw [if_neg h]
  · by_cases hg : f.roleRestricted = true ∧ f.requiredRole ≠ ""
    · rw [if_pos hg, if_neg (by simp [hv]), if_neg (by simp [hm])]
    · rw [if_neg hg]

theorem triggerProceed_fst_skip (f : TFields) (p : PluginState) (ur : List String)
    (u : String) (a : Bool)
    (h : f.assignRole = "" ∨ isValidRole p f.assignRole = false ∨ f.assignRole ∈ ur) :
    (triggerProceed f p ur u a).1 = p := by
  unfold triggerProceed
  rcases h with h | h | h
  · rw [if_neg (by simp [h])]
  · by_cases ha : f.assignRole ≠ ""
    · rw [if_pos ha, if_neg (by simp [h])]
    · rw [if_neg ha]
  · by_cases ha : f.assignRole ≠ ""
    · by_cases hv : isValidRole p f.assignRole = true
      · rw [if_pos ha, if_pos hv, if_pos h]
      · rw [if_pos ha, if_neg hv]
    · rw [if_neg ha]

theorem triggerProceed_fst_assign (f : TFields) (p : PluginState) (ur : List String)
    (u : String) (a : Bool) (ha : f.assignRole ≠ "")
    (hv : isValidRole p f.assignRole = true) (hm : f.assignRole ∉ ur) :
    (triggerProceed f p ur u a).1 =
      { p with userRoles := assignUserRole p.userRoles u f.assignRole } := by
  unfold triggerProceed
  rw [if_pos ha, if_pos hv, if_neg hm]

theorem triggerProceed_trigger_stable (f : TFields) (p : PluginState)
    (u : String) (a : Bool)
    (hpass : ∀ q : PluginState, q.availableRoles = p.availableRoles →
      (∀ x, x ∈ getUserRoles p u → x ∈ getUserRoles q u) →
      trigger f q u a = triggerProceed f q (getUserRoles q u) u a) :
    (trigger f ((triggerProceed f p (getUserRoles p u) u a).1) u a).1 =
      (triggerProceed f p (getUserRoles p u) u a).1 := by
  by_cases ha : f.assignRole = ""
  · rw [triggerProceed_fst_skip f p _ u a (Or.inl ha)]
    rw [hpass p rfl (fun x hx => hx)]
    rw [triggerProceed_fst_skip f p _ u a (Or.inl ha)]
  · by_cases hv : isValidRole p f.assignRole = true
    · by_cases hm : f.assignRole ∈ getUserRoles p u
      · rw [triggerProceed_fst_skip f p _ u a (Or.inr (Or.inr hm))]
        rw [hpass p rfl (fun x hx => hx)]
        rw [triggerProceed_fst_skip f p _ u a (Or.inr (Or.inr hm))]
      · rw [triggerProceed_fst_assign f p _ u a ha hv hm]
        rw [hpass { p with userRoles := assignUserRole p.userRoles u f.assignRole } rfl
          (fun x hx => assignUserRole_mono p.userRoles u f.assignRole x hx)]
        exact triggerProceed_fst_skip f
          { p with userRoles := assignUserRole p.userRoles u f.assignRole }
          (getUserRoles { p with userRoles := assignUserRole p.userRoles u f.assignRole } u)
          u a (Or.inr (Or.inr (assignUserRole_self p.userRoles u f.assignRole)))
    · rw [triggerProceed_fst_skip f p _ u a (Or.inr (Or.inl (by simpa using hv)))]
      rw [hpass p rfl (fun x hx => hx)]
      rw [triggerProceed_fst_skip f p _ u a (Or.inr (Or.inl (by simpa using hv)))]

theorem trigger_trigger_stable (f : TFields) (p : PluginState) (u : String) (a : Bool) :
    (trigger f ((trigger f p u a).1) u a).1 = (trigger f p u a).1 := by
  by_cases hg : f.roleRestricted = true ∧ f.requiredRole ≠ ""
  · by_cases hv : isValidRole p f.requiredRole = true
    · by_cases hm : f.requiredRole ∈ getUserRoles p u
      · rw [trigger_eq_proceed f p u a (Or.inr ⟨hv, hm⟩)]
        exact triggerProceed_trigger_stable f p u a (fun q hav hsub =>
          trigger_eq_proceed f q u a (Or.inr ⟨by
            unfold isValidRole at hv ⊢
            rw [hav]
            exact hv, hsub _ hm⟩))
      · have habort : trigger f p u a = (p, []) := by
          unfold trigger
          rw [if_pos hg, if_neg (by simp [hv]), if_pos hm]
        simp only [habort]
    · have habort : trigger f p u a = (p, []) := by
        unfold trigger
        rw [if_pos hg, if_pos (by simpa using hv)]
      simp only [habort]
  · rw [trigger_eq_proceed f p u a (Or.inl hg)]
    exact triggerProceed_trigger_stable f p u a
      (fun q _ _ => trigger_eq_proceed f q u a (Or.inl hg))

/-- C7: role assignment is idempotent: reassigning a held role changes
nothing, a fresh assignment puts the role in the list exactly once, duplicate
freedom of a role list is preserved, and a second firing of the same trigger
leaves the plugin state of the first firing unchanged. -/
theorem assign_role_idempotent (r : String → List String) (u ro : String) :
    assignUserRole (assignUserRole r u ro) u ro = assignUserRole r u ro ∧
    (ro ∉ r u → ((assignUserRole r u ro) u).count ro = 1) ∧
    (∀ v, (r v).Nodup → ((assignUserRole r u ro) v).Nodup) ∧
    ro ∈ (assignUserRole r u ro) u ∧
    (∀ f p userID isAdmin,
      (trigger f ((trigger f p userID isAdmin).1) userID isAdmin).1 =
        (trigger f p userID isAdmin).1) := by
  have hmem : ro ∈ (assignUserRole r u ro) u := by
    unfold assignUserRole
    rw [if_pos rfl]
    by_cases h : ro ∈ r u
    · rw [if_pos h]; exact h
    · rw [if_neg h]; exact List.mem_append_right _ (List.mem_singleton_self ro)
  have hX : ro ∈ (if ro ∈ r u then r u else r u ++ [ro]) := by
    by_cases h : ro ∈ r u
    · rw [if_pos h]; exact h
    · rw [if_neg h]; exact List.mem_append_right _ (List.mem_singleton_self ro)
  refine ⟨?_, ?_, ?_, hmem, ?_⟩
  · funext v
    unfold assignUserRole
    by_cases hv : v = u
    · subst hv
      simp only [eq_self_iff_true, if_true]
      rw [if_pos hX]
    · rw [if_neg hv]
  · intro hnot
    unfold assignUserRole
    rw [if_pos rfl, if_neg hnot]
    rw [List.count_append]
    rw [List.count_eq_zero.mpr hnot]
    simp
  · intro v hv
    unfold assignUserRole
    by_cases hvu : v = u
    · subst hvu
      rw [if_pos rfl]
      by_cases h : ro ∈ r v
      · rw [if_pos h]; exact hv
      · rw [if_neg h]
        simp only [List.nodup_append, List.nodup_cons, List.nodup_nil]
        exact ⟨hv, by simp, by simpa using h⟩
    · rw [if_neg hvu]; exact hv
  · intro f p userID isAdmin
    exact trigger_trigger_stable f p userID isAdmin

/-- Witness for C7 at concrete inputs: double assignment collapses, a fresh
role appears exactly once without duplicates, and a second firing of the
sample trigger leaves the plugin state fixed. -/
theorem assign_role_idempotent_witness :
    assignUserRole (assignUserRole noRoles "u" "level01") "u" "level01" =
      assignUserRole noRoles "u" "level01" ∧
    ((assignUserRole noRoles "u" "level01") "u").count "level01" = 1 ∧
    ((assignUserRole noRoles "u" "level01") "u").Nodup ∧
    (trigger sampleTF ((trigger sampleTF rolePlugin "alice" false).1) "alice" false).1 =
      (trigger sampleTF rolePlugin "alice" false).1 :=
  ⟨(assign_role_idempotent noRoles "u" "level01").1,
   (assign_role_idempotent noRoles "u" "level01").2.1 (by decide),
   (assign_role_idempotent noRoles "u" "level01").2.2.1 "u" (by decide),
   (assign_role_idempotent noRoles "u" "level01").2.2.2.2 sampleTF rolePlugin "alice" false⟩

/-- C8 counterexample: the volume field set to the parseable value 0, inside
the documented 0..1 range, is not used as given: falsy coalescing replaces it
with the default 1. -/
theorem volume_zero_counterexample :
    parsedVolume "0" = 1 ∧ ¬ parsedVolume "0" = 0 := by
  constructor
  · decide
  · intro h
    rw [show parsedVolume "0" = 1 from by decide] at h
    exact absurd h (by norm_num)

/-- C8 (amended): missing or unparsable numeric fields fall back to the fixed
defaults (distance 2, count 2, cooldown 1, volume 1) and parseable nonzero
values are used as given, but a value parsing to 0 also falls back to the
default because the source coalesces on falsiness. -/
theorem numeric_field_fallbacks (s : String) :
    (parseFloatQ s = none →
      parsedProximityDistance s = 2 ∧ parsedCooldown s = 1 ∧ parsedVolume s = 1) ∧
    (parseIntQ s = none → parsedRequiredUserCount s = 2) ∧
    (∀ x, parseFloatQ s = some x → ¬ x = 0 →
      parsedProximityDistance s = x ∧ parsedCooldown s = x ∧ parsedVolume s = x) ∧
    (∀ n, parseIntQ s = some n → ¬ n = 0 → parsedRequiredUserCount s = n) ∧
    (parseFloatQ s = some 0 →
      parsedProximityDistance s = 2 ∧ parsedCooldown s = 1 ∧ parsedVolume s = 1) ∧
    (parseIntQ s = some 0 → parsedRequiredUserCount s = 2) := by
  refine ⟨fun h => ?_, fun h => ?_, fun x h hx => ?_, fun n h hn => ?_,
    fun h => ?_, fun h => ?_⟩
  · simp [parsedProximityDistance, parsedCooldown, parsedVolume, jsOrQ, h]
  · simp [parsedRequiredUserCount, jsOrI, h]
  · simp [parsedProximityDistance, parsedCooldown, parsedVolume, jsOrQ, h, hx]
  · simp [parsedRequiredUserCount, jsOrI, h, hn]
  · simp [parsedProximityDistance, parsedCooldown, parsedVolume, jsOrQ, h]
  · simp [parsedRequiredUserCount, jsOrI, h]

/-- Witness for C8: an unparsable field, the nonzero value 3, and the value 0
at concrete strings. -/
theorem numeric_field_fallbacks_witness :
    (parsedProximityDistance "abc" = 2 ∧ parsedCooldown "abc" = 1 ∧
      parsedVolume "abc" = 1) ∧
    parsedRequiredUserCount "abc" = 2 ∧
    (parsedProximityDistance "3" = 3 ∧ parsedCooldown "3" = 3 ∧
      parsedVolume "3" = 3) ∧
    parsedRequiredUserCount "3" = 3 ∧
    (parsedProximityDistance "0" = 2 ∧ parsedCooldown "0" = 1 ∧
      parsedVolume "0" = 1) ∧
    parsedRequiredUserCount "0" = 2 :=
  ⟨(numeric_field_fallbacks "abc").1 (by decide),
   (numeric_field_fallbacks "abc").2.1 (by decide),
   (numeric_field_fallbacks "3").2.2.1 3 (by decide) (by norm_num),
   (numeric_field_fallbacks "3").2.2.2.1 3 (by decide) (by norm_num),
   (numeric_field_fallbacks "0").2.2.2.2.1 (by decide),
   (numeric_field_fallbacks "0").2.2.2.2.2 (by decide)⟩

/-- C9 counterexample: in mapping mode with a per-entry forward sound override
and local audio enabled, the receiver plays locally but broadcasts no
relaySound message, refuting the claim that every accepted trigger in every
mode both plays and relays. -/
theorem mapping_override_skips_relay :
    ((handleTransitionMapping sampleRF cexSt9).2.any Effect.isLocalPlay) = true ∧
    ((handleTransitionMapping sampleRF cexSt9).2.any Effect.isRelay) = false :=
  ⟨by decide, by decide⟩

/-- C9 (amended): when the receiver uses its general configured sound, local
audio enabled with a nonblank sound file yields local playback plus exactly
one relaySound broadcast carrying source, file, volume and duration; a blank
sound file yields neither; local audio disabled yields only the broadcast.
A per-entry mapping sound override played locally never broadcasts a relay.
handleReactive emits exactly this sound block between its two commits. -/
theorem sound_emission_rule (f : RFields) (st : RecvState) (duration : ℚ) :
    (st.disableLocalAudio = false → (jsTrim f.sound).length > 0 →
      soundOrRelay f st.disableLocalAudio duration =
        [Effect.playLocal f.sound (parsedVolume f.volume),
         Effect.relaySound f.objectID f.sound (parsedVolume f.volume) duration,
         Effect.audioStop duration]) ∧
    (st.disableLocalAudio = false → (jsTrim f.sound).length = 0 →
      soundOrRelay f st.disableLocalAudio duration = []) ∧
    (st.disableLocalAudio = true →
      soundOrRelay f st.disableLocalAudio duration =
        [Effect.relaySound f.objectID f.sound (parsedVolume f.volume) duration]) ∧
    (∀ sf, (playSoundWithFile f duration sf).all (fun e => !e.isRelay) = true) ∧
    (handleReactive f st).2 =
      [Effect.commit (some f.reactiveAnimation) (some f.reactiveAnimation)]
        ++ soundOrRelay f st.disableLocalAudio (f.dur f.reactiveAnimation)
        ++ [Effect.commit (some f.defaultAnimation) (some f.defaultAnimation)] := by
  refine ⟨?_, ?_, ?_, ?_, rfl⟩
  · intro hd hs
    unfold soundOrRelay playSound
    rw [hd]
    simp only [Bool.false_eq_true, if_false]
    rw [if_pos hs]
  · intro hd hs
    unfold soundOrRelay playSound
    rw [hd]
    simp only [Bool.false_eq_true, if_false]
    rw [if_neg (by omega)]
  · intro hd
    unfold soundOrRelay relayOnly
    rw [hd]
    simp only [if_true]
  · intro sf
    unfold playSoundWithFile
    by_cases h : (jsTrim sf).length > 0
    · rw [if_pos h]
      rfl
    · rw [if_neg h]
      rfl

/-- Witness for C9: the sample receiver plays and relays when local audio is
on, only relays when it is off, and a sound override never relays. -/
theorem sound_emission_rule_witness :
    soundOrRelay sampleRF sampleSt.disableLocalAudio 2000 =
      [Effect.playLocal sampleRF.sound (parsedVolume sampleRF.volume),
       Effect.relaySound sampleRF.objectID sampleRF.sound (parsedVolume sampleRF.volume) 2000,
       Effect.audioStop 2000] ∧
    soundOrRelay sampleRF relaySt.disableLocalAudio 2000 =
      [Effect.relaySound sampleRF.objectID sampleRF.sound (parsedVolume sampleRF.volume) 2000] ∧
    (playSoundWithFile sampleRF 2000 "ding.mp3").all (fun e => !e.isRelay) = true :=
  ⟨(sound_emission_rule sampleRF sampleSt 2000).1 rfl (by decide),
   (sound_emission_rule sampleRF relaySt 2000).2.2.1 rfl,
   (sound_emission_rule sampleRF sampleSt 2000).2.2.2.1 "ding.mp3"⟩

/-- C10: with the role-restricted flag set but the required-role field empty,
role gating is bypassed at both ends: the trigger broadcasts for every user
and plugin state, and the receiver acceptance check passes every matching
trigger message with no role check. -/
theorem empty_required_role_bypass (ft : TFields) (fr : RFields) (p : PluginState)
    (userID : String) (isAdmin : Bool) (msg : TriggerMsg)
    (_h1 : ft.roleRestricted = true) (h2 : ft.requiredRole = "")
    (_h3 : fr.roleRestricted = true) (h4 : fr.requiredRole = "")
    (h5 : msg.action = "trigger") (h6 : msg.actionID = fr.actionID) :
    (trigger ft p userID isAdmin).2 =
      [TriggerEffect.sendTrigger ft.actionID p.instanceID userID ft.objectID isAdmin] ∧
    receiverAccepts fr p msg = true := by
  constructor
  · rw [trigger_eq_proceed ft p userID isAdmin (Or.inl (by simp [h2]))]
    unfold triggerProceed
    rfl
  · unfold receiverAccepts
    rw [if_pos ⟨h5, h6⟩, if_neg (by simp [h4])]

/-- Witness for C10: the bypass configurations broadcast for the roleless user
bob and accept his trigger message. -/
theorem empty_required_role_bypass_witness :
    (trigger bypassTF samplePlugin "bob" false).2 =
      [TriggerEffect.sendTrigger bypassTF.actionID samplePlugin.instanceID "bob"
        bypassTF.objectID false] ∧
    receiverAccepts bypassRF samplePlugin sampleMsg = true :=
  empty_required_role_bypass bypassTF bypassRF samplePlugin "bob" false sampleMsg
    rfl rfl rfl rfl rfl rfl

theorem normalizeDirection_mid (ci : Int) (len : Nat)
    (h0 : 0 < ci) (h1 : ci < (len : Int) - 1) :
    normalizeDirection ci len none = some 1 := by
  unfold normalizeDirection
  rw [if_neg (by omega), if_neg (by omega)]

/-- C1 counterexample: a nonblank staticStates field of only commas parses to
the empty list, after which readSettings leaves the receiver with an undefined
current state, so membership in the configured list is not re-established. -/
theorem cycle_reset_empty_counterexample :
    (readSettingsCycle cexRF1 cexSt1).currentState = none ∧
    (readSettingsCycle cexRF1 cexSt1).staticStates = some [] ∧
    ¬ CycleInv (readSettingsCycle cexRF1 cexSt1) := by
  refine ⟨by decide, by decide, ?_⟩
  rintro ⟨ss, s, hss, hcs, hidx⟩
  rw [show (readSettingsCycle cexRF1 cexSt1).currentState = none from by decide] at hcs
  cases hcs

/-- C1 (amended): whenever the configured static-states string parses to a
nonempty list, readSettings re-establishes the invariant that the current
state is defined and sits in the list at the current index; when the stored
state is absent from the list it resets to index 0 and the first parsed state
with direction forward (reverse for a single-state list, whose index 0 is also
its last index); and from any state satisfying the invariant,
handleTransitionCycle keeps the invariant and every state it commits or
persists is a member of the list. -/
theorem cycle_state_membership (f : RFields) (st : RecvState) :
    (parsedStaticStates f ≠ [] → CycleInv (readSettingsCycle f st)) ∧
    (parsedStaticStates f ≠ [] →
      (∀ c, st.currentState = some c → c = "" ∨ c ∉ parsedStaticStates f) →
      (readSettingsCycle f st).currentIndex = 0 ∧
      (readSettingsCycle f st).currentState = (parsedStaticStates f).head? ∧
      (readSettingsCycle f st).currentDirection =
        some (if (parsedStaticStates f).length = 1 then -1 else 1)) ∧
    (∀ ss s, st.staticStates = some ss → st.currentState = some s →
      jsIndex ss st.currentIndex = some s →
      CycleInv (handleTransitionCycle f st).1 ∧
      (handleTransitionCycle f st).1.staticStates = some ss ∧
      ∀ e ∈ (handleTransitionCycle f st).2, commitsOutside ss e = false) :=
  ⟨fun h => readSettingsCycle_establishes f st h,
   fun h hout => readSettingsCycle_reset f st h hout,
   fun ss s h1 h2 h3 => handleTransitionCycle_preserves f st ss s h1 h2 h3⟩

/-- Witness for C1 at concrete inputs: the sample receiver keeps the invariant
through readSettings, an out-of-list stored state resets to the first state,
and a trigger cycle step commits only listed states. -/
theorem cycle_state_membership_witness :
    CycleInv (readSettingsCycle sampleRF sampleSt) ∧
    ((readSettingsCycle sampleRF cexSt1).currentIndex = 0 ∧
     (readSettingsCycle sampleRF cexSt1).currentState =
       (parsedStaticStates sampleRF).head? ∧
     (readSettingsCycle sampleRF cexSt1).currentDirection =
       some (if (parsedStaticStates sampleRF).length = 1 then -1 else 1)) ∧
    (CycleInv (handleTransitionCycle sampleRF sampleSt).1 ∧
     (handleTransitionCycle sampleRF sampleSt).1.staticStates = some ["a", "b", "c"] ∧
     ∀ e ∈ (handleTransitionCycle sampleRF sampleSt).2,
       commitsOutside ["a", "b", "c"] e = false) :=
  ⟨(cycle_state_membership sampleRF sampleSt).1 (by decide),
   (cycle_state_membership sampleRF cexSt1).2.1 (by decide) (fun c hc => by
      rw [show cexSt1.currentState = some "other" from rfl] at hc
      cases hc
      exact Or.inr (by decide)),
   (cycle_state_membership sampleRF sampleSt).2.2 ["a", "b", "c"] "a" rfl rfl (by decide)⟩

/-- C2 counterexample: with a single-element static-state list at index 0, an
accepted trigger sets the direction to reverse, not forward, because the
last-index rule is checked first and index 0 is also the last index. -/
theorem cycle_direction_singleton_counterexample :
    (handleTransitionCycle sampleRF cexSt2).1.currentDirection = some (-1) ∧
    ¬ (handleTransitionCycle sampleRF cexSt2).1.currentDirection = some 1 :=
  ⟨by decide, by decide⟩

/-- C2 (amended): in handleTransitionCycle the direction becomes reverse
whenever the index is at or past the last position, and forward at index 0
provided the list has at least two states (in a one-element list the
last-index rule wins and the direction becomes reverse); in readSettings an
unset direction at an interior index defaults to forward. -/
theorem cycle_direction_rules (f : RFields) (st : RecvState) :
    (∀ ss, st.staticStates = some ss → ss ≠ [] →
      (((ss.length : Int) - 1 ≤ st.currentIndex →
          (handleTransitionCycle f st).1.currentDirection = some (-1)) ∧
        (2 ≤ ss.length → st.currentIndex ≤ 0 →
          (handleTransitionCycle f st).1.currentDirection = some 1))) ∧
    (st.currentDirection = none →
      0 < (readSettingsCycle f st).currentIndex →
      (readSettingsCycle f st).currentIndex <
        ((parsedStaticStates f).length : Int) - 1 →
      (readSettingsCycle f st).currentDirection = some 1) := by
  constructor
  · intro ss hss hnil
    have hne : ss.isEmpty = false := by
      cases ss with
      | nil => exact absurd rfl hnil
      | cons a t => rfl
    constructor
    · intro hlast
      unfold handleTransitionCycle
      rw [hss]
      simp only [hne, Bool.false_eq_true, if_false, Option.getD_some]
      simp only [hss, Option.getD_some]
      have hd : flipDirection st.currentIndex ss.length st.currentDirection =
          some (-1) := by
        unfold flipDirection
        rw [if_pos hlast]
      rw [hd]
      rw [if_neg (by decide : ¬ (some (-1) : Option Int) = some 1), if_pos rfl]
      by_cases hge : (0 : Int) ≤ st.currentIndex - 1
      · rw [if_pos hge]
      · rw [if_neg hge]
    · intro hlen hle
      unfold handleTransitionCycle
      rw [hss]
      simp only [hne, Bool.false_eq_true, if_false, Option.getD_some]
      simp only [hss, Option.getD_some]
      have hd : flipDirection st.currentIndex ss.length st.currentDirection =
          some 1 := by
        unfold flipDirection
        rw [if_neg (by omega), if_pos hle]
      rw [hd]
      rw [if_pos rfl, if_pos (by omega : st.currentIndex + 1 < (ss.length : Int))]
  · intro hdir
    simp only [readSettingsCycle]
    rw [hdir]
    intro h0 h1
    exact normalizeDirection_mid _ _ h0 h1

/-- Witness for C2 at concrete inputs: at the last index of the three-state
list the direction flips to reverse, at index 0 it is forward, and a stored
state in the middle with no stored direction reads back as forward. -/
theorem cycle_direction_rules_witness :
    (handleTransitionCycle sampleRF lastSt).1.currentDirection = some (-1) ∧
    (handleTransitionCycle sampleRF sampleSt).1.currentDirection = some 1 ∧
    (readSettingsCycle sampleRF midSt).currentDirection = some 1 :=
  ⟨((cycle_direction_rules sampleRF lastSt).1 ["a", "b", "c"] rfl
      (by decide)).1 (by decide),
   ((cycle_direction_rules sampleRF sampleSt).1 ["a", "b", "c"] rfl
      (by decide)).2 (by decide) (by decide),
   (cycle_direction_rules sampleRF midSt).2 rfl (by decide) (by decide)⟩
